import Mathlib

/-!
Shallow embedding of the timer / time-tracking subsystem of the
`azure-devops-code-companion` extension (`src/extension.ts`).

Numbers are modelled as `Int` (epoch milliseconds and second counts);
`Math.floor` of a millisecond difference divided by 1000 is `Int.fdiv · 1000`,
which rounds toward negative infinity exactly like `Math.floor`.
JavaScript `undefined`-able fields become `Option`; the persisted timer
snapshot is kept as a dynamically-typed record (`RawTimer` over `JVal`)
because `restoreTimerState` validates field types at runtime.
Asynchronous interleaving is modelled by a step relation on a global state:
each timer callback or command is one operation, and the sync loop of
`syncPendingTimeEntries` is split into an invocation (which checks the
single-flight flag and snapshots the pending ids) and per-entry steps,
matching the `await` suspension points of the source.  Remote submissions
are recorded in a ghost `submissions` log, one append per call to
`azureDevOpsAPI.addTimeEntry`.
-/

namespace AzdoCompanion

/-- `interface TimerState` from `extension.ts` (the live timer). -/
structure TimerState where
  workItemId : Int
  workItemTitle : String
  startTime : Int
  pausedTime : Option Int := none
  elapsedSeconds : Int
  isPaused : Bool
  isPomodoro : Option Bool := none
  pomodoroCount : Option Int := none
  pausedDueToInactivity : Option Bool := none
deriving DecidableEq, Repr

/-- `interface TimeEntry` from `extension.ts` (an immutable ledger record,
except for its `synced`/`syncError` fields). -/
structure TimeEntry where
  id : String
  workItemId : Int
  workItemTitle : Option String := none
  startTime : Int
  endTime : Int
  duration : Int
  description : Option String := none
  synced : Bool
  syncError : Option String := none
  deviceId : Option String := none
deriving DecidableEq, Repr

/-- A dynamically-typed JavaScript value, as far as the runtime validation in
`isValidTimerState` distinguishes them: number, string, boolean or
undefined/other. -/
inductive JVal where
  | jnum (n : Int)
  | jstr (s : String)
  | jbool (b : Bool)
  | jundef
deriving DecidableEq, Repr

def JVal.asInt : JVal → Int
  | .jnum n => n
  | _ => 0

def JVal.asStr : JVal → String
  | .jstr s => s
  | _ => ""

def JVal.asBool : JVal → Bool
  | .jbool b => b
  | _ => false

/-- The persisted `currentTimer` snapshot as read back from `globalState`:
the five fields checked by `isValidTimerState` carry dynamic types; the
optional fields (which the validator ignores) keep their static types. -/
structure RawTimer where
  workItemId : JVal
  workItemTitle : JVal
  startTime : JVal
  elapsedSeconds : JVal
  isPaused : JVal
  pausedTime : Option Int := none
  isPomodoro : Option Bool := none
  pomodoroCount : Option Int := none
  pausedDueToInactivity : Option Bool := none
deriving DecidableEq, Repr

/-- Serialization of an in-memory timer into the persisted snapshot shape. -/
def toRaw (t : TimerState) : RawTimer :=
  { workItemId := .jnum t.workItemId
    workItemTitle := .jstr t.workItemTitle
    startTime := .jnum t.startTime
    elapsedSeconds := .jnum t.elapsedSeconds
    isPaused := .jbool t.isPaused
    pausedTime := t.pausedTime
    isPomodoro := t.isPomodoro
    pomodoroCount := t.pomodoroCount
    pausedDueToInactivity := t.pausedDueToInactivity }

/-- Reading a validated snapshot back into a `TimerState`
(`currentTimer = savedTimer` after the `isValidTimerState` type guard). -/
def fromRaw (r : RawTimer) : TimerState :=
  { workItemId := r.workItemId.asInt
    workItemTitle := r.workItemTitle.asStr
    startTime := r.startTime.asInt
    elapsedSeconds := r.elapsedSeconds.asInt
    isPaused := r.isPaused.asBool
    pausedTime := r.pausedTime
    isPomodoro := r.isPomodoro
    pomodoroCount := r.pomodoroCount
    pausedDueToInactivity := r.pausedDueToInactivity }

/-- `isValidTimerState` from `extension.ts`: positive numeric id, string
title, positive numeric start time, numeric elapsed seconds within
`[0, 86400]`, boolean pause flag. -/
def isValidTimerState (r : RawTimer) : Bool :=
  (match r.workItemId with | .jnum n => decide (n > 0) | _ => false) &&
  (match r.workItemTitle with | .jstr _ => true | _ => false) &&
  (match r.startTime with | .jnum n => decide (n > 0) | _ => false) &&
  (match r.elapsedSeconds with
    | .jnum n => decide (0 ≤ n) && decide (n ≤ 86400)
    | _ => false) &&
  (match r.isPaused with | .jbool _ => true | _ => false)

/-- Outcome of one remote `addTimeEntry` call: resolves, or rejects with an
error whose `message` may be absent. -/
inductive SyncOutcome where
  | success
  | failure (msg : Option String)
deriving DecidableEq, Repr

/-- `error.message || 'Unknown error'`: a missing or empty message falls back
to the default string. -/
def errMessage (m : Option String) : String :=
  match m with
  | some s => if s = "" then "Unknown error" else s
  | none => "Unknown error"

/-- How `syncTimeEntryToAzure` rewrites the entry it just tried to push:
success sets `synced` and clears `syncError`; failure records the message and
leaves `synced` untouched. -/
def applyOutcome (o : SyncOutcome) (e : TimeEntry) : TimeEntry :=
  match o with
  | .success => { e with synced := true, syncError := none }
  | .failure m => { e with syncError := some (errMessage m) }

/-- The module-level mutable state of `extension.ts` that the timer subsystem
touches, together with the relevant `globalState` keys and a ghost log of
remote submissions. `timerInterval` and `inactivityTimer` record whether the
corresponding `setInterval` handle is live (the inactivity handle also
captures the timeout its closure read from configuration). `syncTask` is
`some ids` exactly while `isSyncingTimeEntries` is true, holding the ids of
the pending-entry snapshot the sync loop still has to visit. -/
structure GlobalState where
  currentTimer : Option TimerState
  timerInterval : Bool
  inactivityTimer : Option Int
  lastActivity : Int
  lastActivityResumeTime : Int
  timeEntries : List TimeEntry
  timerStartLock : Bool
  syncTask : Option (List String)
  submissions : List String
  apiAvailable : Bool
  persistedTimer : Option RawTimer
  persistedLastSaveTime : Option Int
  persistedLastPomodoroNotification : Int
  persistedTimeEntries : List TimeEntry
  totalTimeTracked : Int
deriving DecidableEq, Repr

/-- `saveTimeEntries`: persist the ledger and stamp `lastSaveTime`. -/
def saveTimeEntries (now : Int) (s : GlobalState) : GlobalState :=
  { s with persistedTimeEntries := s.timeEntries
           persistedLastSaveTime := some now }

/-- The timeout read in `startInactivityTimer` with the JavaScript idiom
`get('timerInactivityTimeout') || 300`: an unset value **and a configured 0**
both become 300 (0 is falsy). -/
def effInactivityTimeout (timeoutCfg : Option Int) : Int :=
  match timeoutCfg with
  | none => 300
  | some v => if v = 0 then 300 else v

/-- The inactivity interval `startInactivityTimer` leaves armed: cleared when
the effective timeout is non-positive, otherwise an interval whose closure
captured that timeout. -/
def armedInactivity (timeoutCfg : Option Int) : Option Int :=
  if effInactivityTimeout timeoutCfg ≤ 0 then none
  else some (effInactivityTimeout timeoutCfg)

/-- `startInactivityTimer`: clears any previous inactivity interval and arms
a new one unless the effective timeout is non-positive. -/
def startInactivityTimer (timeoutCfg : Option Int) (s : GlobalState) :
    GlobalState :=
  { s with inactivityTimer := armedInactivity timeoutCfg }

/-- `startTimerInterval` (the arming part): replaces the tick interval and
re-arms the inactivity timer. The body of the interval callback is the
separate operation `tickTimer`. -/
def startTimerInterval (timeoutCfg : Option Int) (s : GlobalState) :
    GlobalState :=
  startInactivityTimer timeoutCfg { s with timerInterval := true }

/-- `startTimer`: no-op under the start-lock or when a session already
exists; otherwise creates the fresh session, resets the persisted
`lastPomodoroNotification` marker to 0, persists the snapshot and arms the
tick and inactivity intervals. -/
def startTimer (itemId : Int) (title : String) (pomodoroCfg : Option Bool)
    (timeoutCfg : Option Int) (now : Int) (s : GlobalState) : GlobalState :=
  if s.timerStartLock then s
  else
    match s.currentTimer with
    | some _ => s
    | none =>
      let t : TimerState :=
        { workItemId := itemId
          workItemTitle := title
          startTime := now
          elapsedSeconds := 0
          isPaused := false
          isPomodoro := pomodoroCfg
          pomodoroCount := some 0 }
      let s1 := { s with currentTimer := some t
                         persistedLastPomodoroNotification := 0
                         persistedTimer := some (toRaw t) }
      startInactivityTimer timeoutCfg (startTimerInterval timeoutCfg s1)

/-- `pauseTimerCommand`: freeze `elapsedSeconds` from the clock clamped to
`[0, 86400]`, mark paused, record the pause instant, stop the tick, persist
the snapshot and a `lastSaveTime` marker. -/
def pauseTimerCommand (now : Int) (s : GlobalState) : GlobalState :=
  match s.currentTimer with
  | none => s
  | some t =>
    if t.isPaused then s
    else
      let rawElapsed := (now - t.startTime).fdiv 1000
      let t1 := { t with elapsedSeconds := max 0 (min rawElapsed 86400)
                         isPaused := true
                         pausedTime := some now }
      { s with currentTimer := some t1
               timerInterval := false
               persistedTimer := some (toRaw t1)
               persistedLastSaveTime := some now }

/-- `resumeTimerCommand`: shift `startTime` forward by the paused duration
(clamped to 24 h) when `pausedTime` is present and positive, clear
`isPaused`/`pausedTime`, persist and re-arm the tick. The `autoResumed`
argument of the source only selects the message shown, so it is omitted.
Note that `pausedDueToInactivity` is **not** touched here: the activity
handler clears it before calling resume. -/
def resumeTimerCommand (timeoutCfg : Option Int) (now : Int)
    (s : GlobalState) : GlobalState :=
  match s.currentTimer with
  | none => s
  | some t =>
    if t.isPaused then
      let t1 :=
        match t.pausedTime with
        | some pt =>
          if pt > 0 then
            let pausedDuration := max 0 (now - pt)
            let cappedPausedDuration := min pausedDuration 86400000
            { t with startTime := t.startTime + cappedPausedDuration }
          else t
        | none => t
      let t2 := { t1 with isPaused := false, pausedTime := none }
      startTimerInterval timeoutCfg
        { s with currentTimer := some t2
                 persistedTimer := some (toRaw t2) }
    else s

/-- The body of the tick interval callback in `startTimerInterval`:
recompute `elapsedSeconds` clamped to `[0, 86400]`, run the Pomodoro
boundary check (marker update and cycle-count increment; the user-facing
break dialog resolves in a later turn and is not part of this state step),
and persist the snapshot. Fires only while the interval is armed. -/
def tickTimer (now : Int) (s : GlobalState) : GlobalState :=
  if s.timerInterval then
    match s.currentTimer with
    | none => s
    | some t =>
      if t.isPaused then s
      else
        let rawElapsed := (now - t.startTime).fdiv 1000
        let t1 := { t with elapsedSeconds := max 0 (min rawElapsed 86400) }
        if t1.isPomodoro = some true then
          let pomodoroSeconds : Int := 25 * 60
          let cycleSeconds : Int := pomodoroSeconds + 5 * 60
          let elapsedInCycle := t1.elapsedSeconds % cycleSeconds
          let lastNotification := s.persistedLastPomodoroNotification
          let timeSince := t1.elapsedSeconds - lastNotification
          if elapsedInCycle = pomodoroSeconds ∧ timeSince ≥ pomodoroSeconds
          then
            let t2 :=
              match t1.pomodoroCount with
              | some c => { t1 with pomodoroCount := some (c + 1) }
              | none => t1
            { s with currentTimer := some t2
                     persistedLastPomodoroNotification := t1.elapsedSeconds
                     persistedTimer := some (toRaw t2) }
          else
            { s with currentTimer := some t1
                     persistedTimer := some (toRaw t1) }
        else
          { s with currentTimer := some t1
                   persistedTimer := some (toRaw t1) }
  else s

/-- `clearTimerState`: cancel both intervals, drop the in-memory session and
the persisted snapshot. -/
def clearTimerState (s : GlobalState) : GlobalState :=
  { s with timerInterval := false
           inactivityTimer := none
           currentTimer := none
           persistedTimer := none }

/-- `syncTimeEntryToAzure`: one remote push of one ledger entry. Returns the
new state and the boolean result. Every call to the remote API is logged in
`submissions` (also on failure: the call happened, then rejected).
The try/catch of the source makes this total: both outcomes land in ledger
state, nothing propagates. -/
def syncTimeEntryToAzure (id : String) (o : SyncOutcome) (now : Int)
    (s : GlobalState) : GlobalState × Bool :=
  if s.apiAvailable then
    let s1 :=
      { s with
          timeEntries :=
            s.timeEntries.map (fun e => if e.id = id then applyOutcome o e
                                        else e)
          submissions := s.submissions ++ [id] }
    (saveTimeEntries now s1,
     match o with | .success => true | .failure _ => false)
  else (s, false)

/-- The duration computation at the top of `stopTimerCommand`: the frozen
`elapsedSeconds` when paused, otherwise the live clock difference clamped to
`[0, 86400]`. -/
def stopDuration (t : TimerState) (now : Int) : Int :=
  if t.isPaused then t.elapsedSeconds
  else max 0 (min ((now - t.startTime).fdiv 1000) 86400)

/-- The task left behind by an invocation of `syncPendingTimeEntries`:
unchanged without the API, while a pass is already in flight (single-flight
`isSyncingTimeEntries`), or when nothing is pending; otherwise the snapshot
of the pending entry ids the new pass has to visit. -/
def nextSyncTask (s : GlobalState) : Option (List String) :=
  if s.apiAvailable then
    if s.syncTask.isSome then s.syncTask
    else
      let pending := s.timeEntries.filter (fun e => !e.synced)
      if pending.isEmpty then s.syncTask
      else some (pending.map (fun e => e.id))
  else s.syncTask

/-- `syncPendingTimeEntries` up to its first suspension: bail out without the
API or while a pass is in flight (single-flight `isSyncingTimeEntries`), or
when nothing is pending; otherwise snapshot the pending entry ids as the
task of the new pass. The per-entry loop iterations are `syncStepEntry`. -/
def syncPendingTimeEntries (s : GlobalState) : GlobalState :=
  { s with syncTask := nextSyncTask s }

/-- One iteration of the `syncPendingTimeEntries` loop: re-check that the
head entry is still unsynced (it may have been synced through another path
while this pass awaited), push it if so, and advance; an exhausted task list
runs the `finally` that clears the single-flight flag. -/
def syncStepEntry (o : SyncOutcome) (now : Int) (s : GlobalState) :
    GlobalState :=
  match s.syncTask with
  | none => s
  | some [] => { s with syncTask := none }
  | some (id :: rest) =>
    match s.timeEntries.find? (fun e => e.id = id) with
    | none => { s with syncTask := some rest }
    | some e =>
      if e.synced then { s with syncTask := some rest }
      else { (syncTimeEntryToAzure id o now s).1 with syncTask := some rest }

/-- The `TimeEntry` literal built in `stopTimerCommand` for a session `t`.
The source reads the clock twice: `duration` comes from the `Date.now()` at
the top of the command (`nowDur`), while `endTime: Date.now()` is evaluated
only after the optional sub-minute confirmation dialog has been awaited
(`nowEnd`), so the two instants can differ by however long the dialog was
open. -/
def stopEntry (t : TimerState) (nowDur nowEnd : Int)
    (newId deviceId : String) : TimeEntry :=
  { id := newId
    workItemId := t.workItemId
    workItemTitle := some t.workItemTitle
    startTime := t.startTime
    endTime := nowEnd
    duration := stopDuration t nowDur
    synced := false
    deviceId := some deviceId }

/-- The keep branch of `stopTimerCommand`, running after the dialog: append
the `TimeEntry` (its `endTime` read now, at `nowEnd`), persist the ledger,
optionally push it right away (`updateChoice`), clear the session, account
the total, and kick off a background pass when other pending entries
remain. -/
def stopKeepPath (now nowEnd : Int) (newId deviceId : String)
    (updateChoice : Bool) (o : SyncOutcome) (t : TimerState)
    (s : GlobalState) : GlobalState :=
  let s1 := saveTimeEntries nowEnd
    { s with timeEntries :=
        s.timeEntries ++ [stopEntry t now nowEnd newId deviceId] }
  let s2 :=
    if s1.apiAvailable ∧ updateChoice then
      (syncTimeEntryToAzure newId o nowEnd s1).1
    else s1
  let s3 := clearTimerState s2
  let s4 :=
    { s3 with totalTimeTracked := s3.totalTimeTracked + stopDuration t now }
  let otherPending :=
    s4.timeEntries.filter (fun e => !e.synced ∧ e.id ≠ newId)
  if otherPending.isEmpty then s4 else syncPendingTimeEntries s4

/-- `stopTimerCommand`: compute the final duration from the clock read at
entry (`now`); on a sub-minute duration ask to keep or discard
(`saveAnyway` is the user's answer, consulted only then) and discard by
clearing state; otherwise run the keep branch, whose later clock reads
(`endTime`, `lastSaveTime`) happen at `nowEnd`, after the dialog await. -/
def stopTimerCommand (now nowEnd : Int) (newId deviceId : String)
    (saveAnyway updateChoice : Bool) (o : SyncOutcome) (s : GlobalState) :
    GlobalState :=
  match s.currentTimer with
  | none => s
  | some t =>
    if stopDuration t now < 60 ∧ ¬saveAnyway then clearTimerState s
    else stopKeepPath now nowEnd newId deviceId updateChoice o t s

/-- The body of the inactivity interval callback in `startInactivityTimer`:
while a session runs unpaused, compare the idle time against the timeout the
closure captured, and on expiry flag `pausedDueToInactivity` and pause.
`(now - lastActivity) / 1000 >= timeout` over JavaScript numbers is
`now - lastActivity >= timeout * 1000` over integers. -/
def inactivityCheck (now : Int) (s : GlobalState) : GlobalState :=
  match s.inactivityTimer with
  | none => s
  | some timeout =>
    match s.currentTimer with
    | none => s
    | some t =>
      if t.isPaused then s
      else if now - s.lastActivity ≥ timeout * 1000 then
        let t1 := { t with pausedDueToInactivity := some true }
        pauseTimerCommand now { s with currentTimer := some t1 }
      else s

/-- `updateActivity`: stamp `lastActivity`; when the session is paused due to
inactivity, debounce (5 s since the last auto-resume), honour the
`autoResumeOnActivity` setting, clear the inactivity flag and resume. -/
def updateActivity (autoResumeCfg : Bool) (timeoutCfg : Option Int)
    (now : Int) (s : GlobalState) : GlobalState :=
  let s0 := { s with lastActivity := now }
  match s0.currentTimer with
  | none => s0
  | some t =>
    if t.isPaused ∧ t.pausedDueToInactivity = some true then
      if now - s0.lastActivityResumeTime < 5000 then s0
      else if autoResumeCfg then
        let t1 := { t with pausedDueToInactivity := some false }
        resumeTimerCommand timeoutCfg now
          { s0 with lastActivityResumeTime := now, currentTimer := some t1 }
      else s0
    else s0

/-- `restoreTimerState`: read the persisted snapshot; discard and clear
storage when `isValidTimerState` rejects it; otherwise adopt it, and if it
was running, advance `elapsedSeconds` by the gap since `lastSaveTime`
(capped at one hour, then clamped to 86400) and rebase `startTime`; re-arm
the tick. -/
def restoreTimerState (timeoutCfg : Option Int) (now : Int)
    (s : GlobalState) : GlobalState :=
  match s.persistedTimer with
  | none => s
  | some raw =>
    if isValidTimerState raw then
      let t := fromRaw raw
      let t1 :=
        if t.isPaused then t
        else
          match s.persistedLastSaveTime with
          | some lst =>
            if lst > 0 then
              let elapsedSinceLastSave := max 0 (now - lst)
              let cappedElapsed := min elapsedSinceLastSave 3600000
              let e1 := t.elapsedSeconds + cappedElapsed.fdiv 1000
              let e2 := min e1 86400
              { t with elapsedSeconds := e2, startTime := now - e2 * 1000 }
            else { t with startTime := now - t.elapsedSeconds * 1000 }
          | none => { t with startTime := now - t.elapsedSeconds * 1000 }
      startTimerInterval timeoutCfg { s with currentTimer := some t1 }
    else { s with persistedTimer := none }

/-- One interleaved event of the subsystem: a user command, a timer callback
firing, an activity signal, or a resumption of the sync loop. -/
inductive Op where
  | start (itemId : Int) (title : String) (pomodoroCfg : Option Bool)
      (timeoutCfg : Option Int) (now : Int)
  | pause (now : Int)
  | resume (timeoutCfg : Option Int) (now : Int)
  | tick (now : Int)
  | stop (now nowEnd : Int) (newId deviceId : String)
      (saveAnyway updateChoice : Bool) (o : SyncOutcome)
  | restore (timeoutCfg : Option Int) (now : Int)
  | inactivity (now : Int)
  | activity (autoResumeCfg : Bool) (timeoutCfg : Option Int) (now : Int)
  | armInactivity (timeoutCfg : Option Int)
  | syncInvoke
  | syncStep (o : SyncOutcome) (now : Int)
deriving DecidableEq, Repr

def step (s : GlobalState) : Op → GlobalState
  | .start itemId title p tc now => startTimer itemId title p tc now s
  | .pause now => pauseTimerCommand now s
  | .resume tc now => resumeTimerCommand tc now s
  | .tick now => tickTimer now s
  | .stop now nowEnd newId devId sv up o =>
      stopTimerCommand now nowEnd newId devId sv up o s
  | .restore tc now => restoreTimerState tc now s
  | .inactivity now => inactivityCheck now s
  | .activity ar tc now => updateActivity ar tc now s
  | .armInactivity tc => startInactivityTimer tc s
  | .syncInvoke => syncPendingTimeEntries s
  | .syncStep o now => syncStepEntry o now s

/-- The state at process activation: no session, no armed intervals, empty
ledger, lock and single-flight flag clear. -/
def initState : GlobalState :=
  { currentTimer := none
    timerInterval := false
    inactivityTimer := none
    lastActivity := 0
    lastActivityResumeTime := 0
    timeEntries := []
    timerStartLock := false
    syncTask := none
    submissions := []
    apiAvailable := true
    persistedTimer := none
    persistedLastSaveTime := none
    persistedLastPomodoroNotification := 0
    persistedTimeEntries := []
    totalTimeTracked := 0 }

/-- States reachable from activation by any interleaving of events. -/
inductive Reachable : GlobalState → Prop where
  | init : Reachable initState
  | next {s : GlobalState} (h : Reachable s) (op : Op) : Reachable (step s op)

/-! Concrete fixtures used by witnesses and counterexamples. -/

/-- The session created by `startTimer 42 "Fix bug"` at epoch 0. -/
def demoTimer : TimerState :=
  { workItemId := 42
    workItemTitle := "Fix bug"
    startTime := 0
    elapsedSeconds := 0
    isPaused := false
    pomodoroCount := some 0 }

/-- A state with that session live and ticking. -/
def demoRunning : GlobalState :=
  { initState with currentTimer := some demoTimer, timerInterval := true }

/-- A persisted snapshot with `elapsedSeconds = -5`, failing validation. -/
def corruptRaw : RawTimer :=
  { workItemId := .jnum 42
    workItemTitle := .jstr "Fix bug"
    startTime := .jnum 1000
    elapsedSeconds := .jnum (-5)
    isPaused := .jbool false }

/-- A freshly activated process whose store holds the corrupt snapshot. -/
def corruptState : GlobalState :=
  { initState with persistedTimer := some corruptRaw }

/-! Projection lemmas: which fields each helper leaves alone. -/

@[simp] theorem startInactivityTimer_currentTimer (tc : Option Int)
    (s : GlobalState) :
    (startInactivityTimer tc s).currentTimer = s.currentTimer := rfl

@[simp] theorem startInactivityTimer_timeEntries (tc : Option Int)
    (s : GlobalState) :
    (startInactivityTimer tc s).timeEntries = s.timeEntries := rfl

@[simp] theorem startInactivityTimer_pomodoroMarker (tc : Option Int)
    (s : GlobalState) :
    (startInactivityTimer tc s).persistedLastPomodoroNotification
      = s.persistedLastPomodoroNotification := rfl

@[simp] theorem startTimerInterval_currentTimer (tc : Option Int)
    (s : GlobalState) :
    (startTimerInterval tc s).currentTimer = s.currentTimer := rfl

@[simp] theorem startTimerInterval_timeEntries (tc : Option Int)
    (s : GlobalState) :
    (startTimerInterval tc s).timeEntries = s.timeEntries := rfl

@[simp] theorem startTimerInterval_pomodoroMarker (tc : Option Int)
    (s : GlobalState) :
    (startTimerInterval tc s).persistedLastPomodoroNotification
      = s.persistedLastPomodoroNotification := rfl

@[simp] theorem syncPendingTimeEntries_currentTimer (s : GlobalState) :
    (syncPendingTimeEntries s).currentTimer = s.currentTimer := rfl

@[simp] theorem syncPendingTimeEntries_timeEntries (s : GlobalState) :
    (syncPendingTimeEntries s).timeEntries = s.timeEntries := rfl

@[simp] theorem syncPendingTimeEntries_submissions (s : GlobalState) :
    (syncPendingTimeEntries s).submissions = s.submissions := rfl

@[simp] theorem syncPendingTimeEntries_persistedTimer (s : GlobalState) :
    (syncPendingTimeEntries s).persistedTimer = s.persistedTimer := rfl

@[simp] theorem syncTimeEntryToAzure_currentTimer (id : String)
    (o : SyncOutcome) (now : Int) (s : GlobalState) :
    ((syncTimeEntryToAzure id o now s).1).currentTimer = s.currentTimer := by
  simp only [syncTimeEntryToAzure, saveTimeEntries]
  split <;> rfl

@[simp] theorem syncTimeEntryToAzure_apiAvailable (id : String)
    (o : SyncOutcome) (now : Int) (s : GlobalState) :
    ((syncTimeEntryToAzure id o now s).1).apiAvailable = s.apiAvailable := by
  simp only [syncTimeEntryToAzure, saveTimeEntries]
  split <;> rfl

@[simp] theorem syncTimeEntryToAzure_syncTask (id : String)
    (o : SyncOutcome) (now : Int) (s : GlobalState) :
    ((syncTimeEntryToAzure id o now s).1).syncTask = s.syncTask := by
  simp only [syncTimeEntryToAzure, saveTimeEntries]
  split <;> rfl

theorem syncTimeEntryToAzure_timeEntries (id : String) (o : SyncOutcome)
    (now : Int) (s : GlobalState) (h : s.apiAvailable = true) :
    ((syncTimeEntryToAzure id o now s).1).timeEntries
      = s.timeEntries.map (fun e => if e.id = id then applyOutcome o e
                                    else e) := by
  simp [syncTimeEntryToAzure, saveTimeEntries, h]

theorem syncTimeEntryToAzure_submissions (id : String) (o : SyncOutcome)
    (now : Int) (s : GlobalState) (h : s.apiAvailable = true) :
    ((syncTimeEntryToAzure id o now s).1).submissions
      = s.submissions ++ [id] := by
  simp [syncTimeEntryToAzure, saveTimeEntries, h]

@[simp] theorem syncStepEntry_currentTimer (o : SyncOutcome) (now : Int)
    (s : GlobalState) :
    (syncStepEntry o now s).currentTimer = s.currentTimer := by
  unfold syncStepEntry
  repeat' split
  all_goals simp

/-- `applyOutcome` only touches `synced` and `syncError`. -/
theorem applyOutcome_id (o : SyncOutcome) (e : TimeEntry) :
    (applyOutcome o e).id = e.id := by
  cases o <;> rfl

theorem applyOutcome_duration (o : SyncOutcome) (e : TimeEntry) :
    (applyOutcome o e).duration = e.duration := by
  cases o <;> rfl

/-- The clamp `Math.max(0, Math.min(x, 86400))` lands in `[0, 86400]`. -/
theorem clamp86400_bounds (x : Int) :
    0 ≤ max 0 (min x 86400) ∧ max 0 (min x 86400) ≤ 86400 :=
  ⟨le_max_left 0 _, max_le (by norm_num) (min_le_right _ _)⟩

/-- C2: calling `startTimer` while the start-lock is held or while a session
already exists is a no-op: the state — in particular the existing session —
is unchanged, and no second session is created. -/
theorem c2_start_noop (itemId : Int) (title : String)
    (pomodoroCfg : Option Bool) (timeoutCfg : Option Int) (now : Int)
    (s : GlobalState)
    (h : s.timerStartLock = true ∨ s.currentTimer ≠ none) :
    startTimer itemId title pomodoroCfg timeoutCfg now s = s := by
  unfold startTimer
  rcases h with h1 | h2
  · simp [h1]
  · cases hc : s.currentTimer with
    | none => exact absurd hc h2
    | some t =>
      by_cases hl : s.timerStartLock = true
      · simp [hl]
      · simp [hl, hc]

theorem c2_start_noop_witness :
    startTimer 7 "Other item" none none 5000 demoRunning = demoRunning :=
  c2_start_noop 7 "Other item" none none 5000 demoRunning (Or.inr (by decide))

/-- C6: a persisted snapshot that fails `isValidTimerState` is discarded at
restore: the snapshot key is cleared and no session is created — the system
stays Idle (and `restoreTimerState` is a total function, so nothing is
thrown). -/
theorem c6_restore_invalid_snapshot (timeoutCfg : Option Int) (now : Int)
    (s : GlobalState) (raw : RawTimer)
    (h1 : s.persistedTimer = some raw)
    (h2 : isValidTimerState raw = false)
    (h3 : s.currentTimer = none) :
    (restoreTimerState timeoutCfg now s).currentTimer = none ∧
    (restoreTimerState timeoutCfg now s).persistedTimer = none := by
  unfold restoreTimerState
  simp [h1, h2, h3]

theorem c6_restore_invalid_snapshot_witness :
    (restoreTimerState none 5000 corruptState).currentTimer = none ∧
    (restoreTimerState none 5000 corruptState).persistedTimer = none :=
  c6_restore_invalid_snapshot none 5000 corruptState corruptRaw rfl
    (by decide) rfl

/-- C10: a successful `startTimer` writes 0 to the persisted
`lastPomodoroNotification` marker and starts the session with
`pomodoroCount = 0`, so no Pomodoro fire marker survives from the previous
session. -/
theorem c10_start_resets_pomodoro_marker (itemId : Int) (title : String)
    (pomodoroCfg : Option Bool) (timeoutCfg : Option Int) (now : Int)
    (s : GlobalState)
    (hl : s.timerStartLock = false) (hc : s.currentTimer = none) :
    (startTimer itemId title pomodoroCfg timeoutCfg now
        s).persistedLastPomodoroNotification = 0 ∧
    ∃ t, (startTimer itemId title pomodoroCfg timeoutCfg now
        s).currentTimer = some t ∧ t.pomodoroCount = some 0 := by
  unfold startTimer
  simp [hl, hc]

/-- Updating the entries whose id matches moves `find?` along: if the first
entry with a given id is `e`, then after the per-id rewrite it is `g e`,
provided `g` preserves ids. -/
theorem find_map_update (es : List TimeEntry) (id : String)
    (g : TimeEntry → TimeEntry) (hg : ∀ e, (g e).id = e.id) (e : TimeEntry)
    (h : es.find? (fun x => x.id = id) = some e) :
    (es.map (fun x => if x.id = id then g x else x)).find?
        (fun x => x.id = id) = some (g e) := by
  induction es with
  | nil => simp at h
  | cons a tl ih =>
    rw [List.map_cons, List.find?_cons]
    rw [List.find?_cons] at h
    by_cases ha : a.id = id
    · have h2 : decide (a.id = id) = true := by simpa using ha
      rw [h2] at h
      have h4 : a = e := by simpa using h
      subst h4
      rw [if_pos ha]
      have h3 : decide ((g a).id = id) = true := by simp [hg, ha]
      rw [h3]
    · have h2 : decide (a.id = id) = false := by simpa using ha
      rw [h2] at h
      have h5 : List.find? (fun x => decide (x.id = id)) tl = some e := by
        simpa using h
      rw [if_neg ha, h2]
      exact ih h5

/-- C5: `syncTimeEntryToAzure` never lets the remote outcome escape: a
successful call leaves the entry with `synced = true` and no `syncError`; a
failed call records a non-absent `syncError` (falling back to
"Unknown error") and leaves `synced = false`; a subsequent successful sync
of the same entry clears the error and marks it synced. -/
theorem c5_syncOne_outcomes (s : GlobalState) (id : String) (e : TimeEntry)
    (now1 now2 : Int) (m : Option String)
    (hapi : s.apiAvailable = true)
    (hfind : s.timeEntries.find? (fun x => x.id = id) = some e)
    (hsync : e.synced = false) :
    ((syncTimeEntryToAzure id .success now1 s).1.timeEntries.find?
        (fun x => x.id = id)
      = some { e with synced := true, syncError := none }) ∧
    ((syncTimeEntryToAzure id (.failure m) now1 s).1.timeEntries.find?
        (fun x => x.id = id)
      = some { e with syncError := some (errMessage m) }) ∧
    ({ e with syncError := some (errMessage m) } : TimeEntry).synced
      = false ∧
    ((syncTimeEntryToAzure id .success now2
        (syncTimeEntryToAzure id (.failure m) now1
          s).1).1.timeEntries.find? (fun x => x.id = id)
      = some { e with synced := true, syncError := none }) := by
  refine ⟨?_, ?_, ?_, ?_⟩
  · rw [syncTimeEntryToAzure_timeEntries id .success now1 s hapi]
    exact find_map_update _ _ _ (applyOutcome_id _) _ hfind
  · rw [syncTimeEntryToAzure_timeEntries id (.failure m) now1 s hapi]
    exact find_map_update _ _ _ (applyOutcome_id _) _ hfind
  · simpa using hsync
  · have hapi2 :
        ((syncTimeEntryToAzure id (.failure m) now1 s).1).apiAvailable
          = true := by
      rw [syncTimeEntryToAzure_apiAvailable]; exact hapi
    have hfind2 :
        ((syncTimeEntryToAzure id (.failure m) now1
            s).1).timeEntries.find? (fun x => x.id = id)
          = some (applyOutcome (.failure m) e) := by
      rw [syncTimeEntryToAzure_timeEntries id (.failure m) now1 s hapi]
      exact find_map_update _ _ _ (applyOutcome_id _) _ hfind
    rw [syncTimeEntryToAzure_timeEntries id .success now2 _ hapi2]
    have hres := find_map_update _ id _ (applyOutcome_id SyncOutcome.success)
      (applyOutcome (.failure m) e) hfind2
    exact hres

/-- A pending ledger entry, as created by a stop at 90 s. -/
def pendingEntry : TimeEntry :=
  { id := "E1"
    workItemId := 42
    workItemTitle := some "Fix bug"
    startTime := 0
    endTime := 90000
    duration := 90
    synced := false
    deviceId := some "dev" }

/-- A state whose ledger holds that single pending entry. -/
def ledgerState : GlobalState :=
  { initState with timeEntries := [pendingEntry] }

theorem c5_syncOne_outcomes_witness :
    ((syncTimeEntryToAzure "E1" .success 1000 ledgerState).1.timeEntries.find?
        (fun x => x.id = "E1")
      = some { pendingEntry with synced := true, syncError := none }) ∧
    ((syncTimeEntryToAzure "E1" (.failure (some "HTTP 500")) 1000
        ledgerState).1.timeEntries.find? (fun x => x.id = "E1")
      = some { pendingEntry with
          syncError := some (errMessage (some "HTTP 500")) }) ∧
    ({ pendingEntry with
        syncError := some (errMessage (some "HTTP 500")) } : TimeEntry).synced
      = false ∧
    ((syncTimeEntryToAzure "E1" .success 2000
        (syncTimeEntryToAzure "E1" (.failure (some "HTTP 500")) 1000
          ledgerState).1).1.timeEntries.find? (fun x => x.id = "E1")
      = some { pendingEntry with synced := true, syncError := none }) :=
  c5_syncOne_outcomes ledgerState "E1" pendingEntry 1000 2000
    (some "HTTP 500") rfl (by decide) rfl

/-- C7 (counterexample to the claim as stated): a session auto-paused by the
inactivity monitor and then resumed still carries
`pausedDueToInactivity = true` after the resume — `resumeTimerCommand` does
not clear that flag. -/
theorem c7_resume_counterexample :
    ((step (step (step initState
        (.start 42 "Fix bug" none (some 300) 0))
        (.inactivity 400000))
        (.resume none 500000)).currentTimer.map
      (fun t => (t.isPaused, t.pausedDueToInactivity)))
      = some (false, some true) := by decide

/-- C7 (amended): resuming a paused session shifts `startTime` forward by
the paused duration (`now - pausedTime`, floored at 0 and capped at 24 h)
when `pausedTime` is present and positive, sets `isPaused = false`, clears
`pausedTime`, and keeps `elapsedSeconds`; `pausedDueToInactivity` is left
unchanged (the activity handler, not resume, clears it). -/
theorem c7_resume_clears_pause_fields (timeoutCfg : Option Int) (now : Int)
    (s : GlobalState) (t : TimerState)
    (ht : s.currentTimer = some t) (hp : t.isPaused = true) :
    ∃ t2, (resumeTimerCommand timeoutCfg now s).currentTimer = some t2 ∧
      t2.isPaused = false ∧ t2.pausedTime = none ∧
      t2.pausedDueToInactivity = t.pausedDueToInactivity ∧
      t2.elapsedSeconds = t.elapsedSeconds ∧
      t2.startTime = (match t.pausedTime with
        | some pt =>
          if pt > 0 then t.startTime + min (max 0 (now - pt)) 86400000
          else t.startTime
        | none => t.startTime) := by
  unfold resumeTimerCommand
  simp only [ht, hp, if_true]
  cases hpt : t.pausedTime with
  | none => exact ⟨_, rfl, rfl, rfl, rfl, rfl, rfl⟩
  | some pt =>
    by_cases hgt : pt > 0
    · simp only [hgt, if_true]
      exact ⟨_, rfl, rfl, rfl, rfl, rfl, rfl⟩
    · simp only [hgt, if_false]
      exact ⟨_, rfl, rfl, rfl, rfl, rfl, rfl⟩

/-- The demo session paused at 100 s. -/
def demoPausedState : GlobalState :=
  step (step initState (.start 42 "Fix bug" none none 0)) (.pause 100000)

/-- The timer inside `demoPausedState`. -/
def demoPausedTimer : TimerState :=
  { workItemId := 42
    workItemTitle := "Fix bug"
    startTime := 0
    pausedTime := some 100000
    elapsedSeconds := 100
    isPaused := true
    pomodoroCount := some 0 }

theorem c7_resume_clears_pause_fields_witness :
    ∃ t2, (resumeTimerCommand none 200000
        demoPausedState).currentTimer = some t2 ∧
      t2.isPaused = false ∧ t2.pausedTime = none ∧
      t2.pausedDueToInactivity = demoPausedTimer.pausedDueToInactivity ∧
      t2.elapsedSeconds = demoPausedTimer.elapsedSeconds ∧
      t2.startTime = (match demoPausedTimer.pausedTime with
        | some pt =>
          if pt > 0 then
            demoPausedTimer.startTime + min (max 0 (200000 - pt)) 86400000
          else demoPausedTimer.startTime
        | none => demoPausedTimer.startTime) :=
  c7_resume_clears_pause_fields none 200000 demoPausedState demoPausedTimer
    (by decide) rfl

/-- C8 (counterexample to the claim as stated): with
`timerInactivityTimeout` configured to exactly 0, the `|| 300` default makes
the monitor arm with the 300 s default instead of being disabled, and the
session does get auto-paused with `pausedDueToInactivity = true`. -/
theorem c8_zero_timeout_counterexample :
    (startInactivityTimer (some 0) initState).inactivityTimer = some 300 ∧
    ((step (step initState (.start 42 "Fix bug" none (some 0) 0))
        (.inactivity 400000)).currentTimer.map
      (fun t => (t.isPaused, t.pausedDueToInactivity)))
      = some (true, some true) := by decide

/-- C8 (amended): only a strictly negative configured timeout disables the
inactivity monitor (no interval armed, and with no interval armed the
periodic check never fires, so the session is never auto-paused); a
configured 0 is falsy in `get(...) || 300` and yields the 300 s default. -/
theorem c8_negative_timeout_disables (v : Int) (hv : v < 0)
    (s : GlobalState) (now : Int) (s2 : GlobalState)
    (h2 : s2.inactivityTimer = none) :
    (startInactivityTimer (some v) s).inactivityTimer = none ∧
    inactivityCheck now s2 = s2 := by
  constructor
  · have hne : ¬ v = 0 := by omega
    have hle : v ≤ 0 := by omega
    simp [startInactivityTimer, armedInactivity, effInactivityTimeout, hne,
      hle]
  · simp [inactivityCheck, h2]

theorem c8_negative_timeout_disables_witness :
    (startInactivityTimer (some (-1)) initState).inactivityTimer = none ∧
    inactivityCheck 0 initState = initState :=
  c8_negative_timeout_disables (-1) (by norm_num) initState 0 initState rfl

/-- Mapping a per-id `applyOutcome` rewrite through a projection that the
outcome cannot change is invisible. -/
theorem map_update_map {α : Type} (f : TimeEntry → α)
    (hf : ∀ o e, f (applyOutcome o e) = f e) (es : List TimeEntry)
    (id : String) (o : SyncOutcome) :
    (es.map (fun e => if e.id = id then applyOutcome o e else e)).map f
      = es.map f := by
  induction es with
  | nil => rfl
  | cons a tl ih =>
    simp only [List.map_cons, ih]
    by_cases ha : a.id = id
    · rw [if_pos ha, hf]
    · rw [if_neg ha]

/-- The keep branch of `stopTimerCommand` (duration at least a minute, or
the user chose Save): exactly one entry — `stopEntry t now ...` — is
appended to the ledger (later sync attempts may rewrite its
`synced`/`syncError` but nothing a projection `f` ignoring those can see),
and the session and its persisted snapshot are cleared. -/
theorem stopKeepPath_currentTimer (now nowEnd : Int)
    (newId deviceId : String) (updateChoice : Bool) (o : SyncOutcome)
    (t : TimerState) (s : GlobalState) :
    (stopKeepPath now nowEnd newId deviceId updateChoice o t s).currentTimer
      = none := by
  unfold stopKeepPath
  dsimp only
  rw [apply_ite GlobalState.currentTimer]
  simp [clearTimerState]

theorem stopKeepPath_persistedTimer (now nowEnd : Int)
    (newId deviceId : String) (updateChoice : Bool) (o : SyncOutcome)
    (t : TimerState) (s : GlobalState) :
    (stopKeepPath now nowEnd newId deviceId updateChoice o t
        s).persistedTimer = none := by
  unfold stopKeepPath
  dsimp only
  rw [apply_ite GlobalState.persistedTimer]
  simp [clearTimerState]

theorem stopKeepPath_entries_map {α : Type} (f : TimeEntry → α)
    (hf : ∀ o e, f (applyOutcome o e) = f e)
    (now nowEnd : Int) (newId deviceId : String) (updateChoice : Bool)
    (o : SyncOutcome) (t : TimerState) (s : GlobalState) :
    (stopKeepPath now nowEnd newId deviceId updateChoice o t
        s).timeEntries.map f
      = s.timeEntries.map f ++ [f (stopEntry t now nowEnd newId deviceId)]
      := by
  unfold stopKeepPath
  dsimp only
  rw [apply_ite GlobalState.timeEntries, apply_ite (List.map f)]
  rw [syncPendingTimeEntries_timeEntries, ite_self]
  simp only [clearTimerState]
  split
  · rename_i hchoice
    rw [syncTimeEntryToAzure_timeEntries _ _ _ _ hchoice.1]
    rw [map_update_map f hf]
    simp [saveTimeEntries]
  · simp [saveTimeEntries]

theorem stop_savePath {α : Type} (f : TimeEntry → α)
    (hf : ∀ o e, f (applyOutcome o e) = f e)
    (s : GlobalState) (t : TimerState) (now nowEnd : Int)
    (newId deviceId : String) (saveAnyway updateChoice : Bool)
    (o : SyncOutcome)
    (ht : s.currentTimer = some t)
    (hkeep : 60 ≤ stopDuration t now ∨ saveAnyway = true) :
    (stopTimerCommand now nowEnd newId deviceId saveAnyway updateChoice o
        s).timeEntries.map f
      = s.timeEntries.map f ++ [f (stopEntry t now nowEnd newId deviceId)] ∧
    (stopTimerCommand now nowEnd newId deviceId saveAnyway updateChoice o
        s).currentTimer = none ∧
    (stopTimerCommand now nowEnd newId deviceId saveAnyway updateChoice o
        s).persistedTimer = none := by
  have hcond : ¬(stopDuration t now < 60 ∧ ¬(saveAnyway = true)) := by
    rcases hkeep with h | h
    · exact fun hc => absurd hc.1 (by omega)
    · exact fun hc => hc.2 h
  unfold stopTimerCommand
  simp only [ht]
  rw [if_neg hcond]
  exact ⟨stopKeepPath_entries_map f hf now nowEnd newId deviceId updateChoice
      o t s,
    stopKeepPath_currentTimer now nowEnd newId deviceId updateChoice o t s,
    stopKeepPath_persistedTimer now nowEnd newId deviceId updateChoice o t s⟩

/-- C9: when the final duration is below 60 seconds, choosing Discard clears
the session and its snapshot and appends nothing — the ledger is exactly as
before; choosing Save appends exactly one entry carrying that sub-minute
duration. -/
theorem c9_subminute_stop (s : GlobalState) (t : TimerState)
    (now nowEnd : Int) (newId deviceId : String) (updateChoice : Bool)
    (o : SyncOutcome)
    (ht : s.currentTimer = some t)
    (hd : stopDuration t now < 60) :
    ((stopTimerCommand now nowEnd newId deviceId false updateChoice o
        s).timeEntries = s.timeEntries ∧
     (stopTimerCommand now nowEnd newId deviceId false updateChoice o
        s).currentTimer = none ∧
     (stopTimerCommand now nowEnd newId deviceId false updateChoice o
        s).persistedTimer = none) ∧
    ((stopTimerCommand now nowEnd newId deviceId true updateChoice o
        s).currentTimer = none ∧
     (stopTimerCommand now nowEnd newId deviceId true updateChoice o
        s).timeEntries.map (fun e => (e.id, e.duration))
       = s.timeEntries.map (fun e => (e.id, e.duration))
         ++ [(newId, stopDuration t now)]) := by
  constructor
  · unfold stopTimerCommand
    simp only [ht]
    rw [if_pos ⟨hd, by simp⟩]
    exact ⟨rfl, rfl, rfl⟩
  · have h := stop_savePath (fun e => (e.id, e.duration))
      (fun o e => by cases o <;> rfl) s t now nowEnd newId deviceId true
      updateChoice o ht (Or.inr rfl)
    exact ⟨h.2.1, h.1⟩

theorem c9_subminute_stop_witness :
    ((stopTimerCommand 10000 40000 "E9" "dev" false false .success
        (step initState (.start 42 "Fix bug" none none 0))).timeEntries
       = (step initState (.start 42 "Fix bug" none none 0)).timeEntries ∧
     (stopTimerCommand 10000 40000 "E9" "dev" false false .success
        (step initState
          (.start 42 "Fix bug" none none 0))).currentTimer = none ∧
     (stopTimerCommand 10000 40000 "E9" "dev" false false .success
        (step initState
          (.start 42 "Fix bug" none none 0))).persistedTimer = none) ∧
    ((stopTimerCommand 10000 40000 "E9" "dev" true false .success
        (step initState
          (.start 42 "Fix bug" none none 0))).currentTimer = none ∧
     (stopTimerCommand 10000 40000 "E9" "dev" true false .success
        (step initState
          (.start 42 "Fix bug" none none 0))).timeEntries.map
        (fun e => (e.id, e.duration))
       = (step initState
            (.start 42 "Fix bug" none none 0)).timeEntries.map
          (fun e => (e.id, e.duration))
         ++ [("E9", stopDuration demoTimer 10000)]) :=
  c9_subminute_stop (step initState (.start 42 "Fix bug" none none 0))
    demoTimer 10000 40000 "E9" "dev" false .success (by decide) (by decide)

/-- The claim of C3, taken literally (spec wording): an entry's recorded
duration is its end minus start in whole seconds, clamped to the 24 h cap. -/
def specDurationOfBounds (e : TimeEntry) : Prop :=
  e.duration = max 0 (min ((e.endTime - e.startTime).fdiv 1000) 86400)

/-- C3 (counterexample to the claim as stated): stop a session that was
paused at 100 s and stopped at 200 s — the entry records
`duration = 100` while `endTime - startTime` is 200 s, because the final
pause does not shift `startTime`. -/
theorem c3_duration_counterexample :
    (step (step (step initState (.start 42 "Fix bug" none none 0))
        (.pause 100000))
        (.stop 200000 200000 "E1" "dev" true false .success)).timeEntries
      = [{ id := "E1", workItemId := 42, workItemTitle := some "Fix bug",
           startTime := 0, endTime := 200000, duration := 100,
           synced := false, deviceId := some "dev" }] ∧
    ¬ specDurationOfBounds
        { id := "E1", workItemId := 42, workItemTitle := some "Fix bug",
          startTime := 0, endTime := 200000, duration := 100,
          synced := false, deviceId := some "dev" } := by
  refine ⟨by decide, ?_⟩
  unfold specDurationOfBounds
  decide

/-- C3 (amended): every entry created by `stopTimerCommand` records the
session's `startTime` and an `endTime` read after the optional sub-minute
confirmation dialog (`nowEnd`), while its duration comes from the clock
read at command entry (`now`): for a session running at stop time it is
`floor((now - startTime)/1000)` clamped to `[0, 86400]` — which equals the
spec's `floor((endTime - startTime)/1000)` clamped exactly when no time
passes between the two clock reads; for a session paused at stop time it is
the frozen `elapsedSeconds`, which can be smaller than
`endTime - startTime` because the final pause leaves `startTime` in
place. -/
theorem c3_stop_duration (s : GlobalState) (t : TimerState)
    (now nowEnd : Int) (newId deviceId : String)
    (saveAnyway updateChoice : Bool) (o : SyncOutcome)
    (ht : s.currentTimer = some t)
    (hkeep : 60 ≤ stopDuration t now ∨ saveAnyway = true) :
    (stopTimerCommand now nowEnd newId deviceId saveAnyway updateChoice o
        s).timeEntries.map
        (fun e => (e.id, e.startTime, e.endTime, e.duration))
      = s.timeEntries.map
          (fun e => (e.id, e.startTime, e.endTime, e.duration))
        ++ [(newId, t.startTime, nowEnd, stopDuration t now)] ∧
    (t.isPaused = false →
      stopDuration t now
        = max 0 (min ((now - t.startTime).fdiv 1000) 86400)) ∧
    (t.isPaused = true → stopDuration t now = t.elapsedSeconds) ∧
    (t.isPaused = false → nowEnd = now →
      specDurationOfBounds (stopEntry t now nowEnd newId deviceId)) := by
  refine ⟨?_, ?_, ?_, ?_⟩
  · exact (stop_savePath (fun e => (e.id, e.startTime, e.endTime, e.duration))
      (fun o e => by cases o <;> rfl) s t now nowEnd newId deviceId
      saveAnyway updateChoice o ht hkeep).1
  · intro hrun; unfold stopDuration; rw [hrun]; rfl
  · intro hp; unfold stopDuration; rw [hp]; rfl
  · intro hrun heq
    subst heq
    unfold specDurationOfBounds stopEntry stopDuration
    dsimp only
    rw [hrun]
    rfl

theorem c3_stop_duration_witness :
    (stopTimerCommand 90000 90000 "E3" "dev" false false .success
        (step initState (.start 42 "Fix bug" none none 0))).timeEntries.map
        (fun e => (e.id, e.startTime, e.endTime, e.duration))
      = (step initState (.start 42 "Fix bug" none none 0)).timeEntries.map
          (fun e => (e.id, e.startTime, e.endTime, e.duration))
        ++ [("E3", demoTimer.startTime, 90000, stopDuration demoTimer 90000)] ∧
    (demoTimer.isPaused = false →
      stopDuration demoTimer 90000
        = max 0 (min (((90000 : Int) - demoTimer.startTime).fdiv 1000)
            86400)) ∧
    (demoTimer.isPaused = true →
      stopDuration demoTimer 90000 = demoTimer.elapsedSeconds) ∧
    (demoTimer.isPaused = false → (90000 : Int) = 90000 →
      specDurationOfBounds (stopEntry demoTimer 90000 90000 "E3" "dev")) :=
  c3_stop_duration (step initState (.start 42 "Fix bug" none none 0))
    demoTimer 90000 90000 "E3" "dev" false false .success (by decide)
    (Or.inl (by decide))

/-- The TimerSession invariant of the spec: accumulated elapsed seconds stay
within the 24-hour cap. -/
def timerOk (t : TimerState) : Prop :=
  0 ≤ t.elapsedSeconds ∧ t.elapsedSeconds ≤ 86400

/-- The live session, when present, satisfies the cap invariant. -/
def TimerInv (s : GlobalState) : Prop :=
  ∀ t, s.currentTimer = some t → timerOk t

/-- A snapshot accepted by `isValidTimerState` restores with in-range
elapsed seconds. -/
theorem valid_elapsed_bounds (r : RawTimer)
    (hv : isValidTimerState r = true) :
    0 ≤ (fromRaw r).elapsedSeconds ∧ (fromRaw r).elapsedSeconds ≤ 86400 := by
  unfold isValidTimerState at hv
  cases hel : r.elapsedSeconds with
  | jnum n =>
    rw [hel] at hv
    simp only [Bool.and_eq_true, decide_eq_true_eq] at hv
    have h1 : (0 : Int) ≤ n ∧ n ≤ 86400 := by constructor <;> tauto
    unfold fromRaw JVal.asInt
    rw [hel]
    exact h1
  | jstr v => rw [hel] at hv; simp at hv
  | jbool v => rw [hel] at hv; simp at hv
  | jundef => rw [hel] at hv; simp at hv

theorem timerInv_start (s : GlobalState) (itemId : Int) (title : String)
    (p : Option Bool) (tc : Option Int) (now : Int) (h : TimerInv s) :
    TimerInv (startTimer itemId title p tc now s) := by
  intro t ht
  unfold startTimer at ht
  by_cases hl : s.timerStartLock = true
  · rw [if_pos hl] at ht; exact h t ht
  · rw [if_neg hl] at ht
    cases hc : s.currentTimer with
    | some t0 =>
      simp only [hc] at ht
      have hte := Option.some.inj ht
      subst hte
      exact h t0 hc
    | none =>
      simp only [hc] at ht
      rw [startInactivityTimer_currentTimer,
        startTimerInterval_currentTimer] at ht
      dsimp only at ht
      have hte := Option.some.inj ht
      subst hte
      exact ⟨le_refl 0, by norm_num⟩

theorem timerInv_pause (s : GlobalState) (now : Int) (h : TimerInv s) :
    TimerInv (pauseTimerCommand now s) := by
  intro t ht
  unfold pauseTimerCommand at ht
  cases hc : s.currentTimer with
  | none => simp only [hc] at ht; exact Option.noConfusion ht
  | some t0 =>
    simp only [hc] at ht
    by_cases hp : t0.isPaused = true
    · rw [if_pos hp] at ht; exact h t ht
    · rw [if_neg hp] at ht
      dsimp only at ht
      have hte := Option.some.inj ht
      subst hte
      exact ⟨(clamp86400_bounds _).1, (clamp86400_bounds _).2⟩

theorem timerInv_resume (s : GlobalState) (tc : Option Int) (now : Int)
    (h : TimerInv s) : TimerInv (resumeTimerCommand tc now s) := by
  intro t ht
  unfold resumeTimerCommand at ht
  cases hc : s.currentTimer with
  | none => simp only [hc] at ht; exact Option.noConfusion ht
  | some t0 =>
    simp only [hc] at ht
    by_cases hp : t0.isPaused = true
    · rw [if_pos hp] at ht
      rw [startTimerInterval_currentTimer] at ht
      dsimp only at ht
      cases hpt : t0.pausedTime with
      | none =>
        simp only [hpt] at ht
        have hte := Option.some.inj ht
        subst hte
        exact h t0 hc
      | some pt =>
        simp only [hpt] at ht
        by_cases hgt : pt > 0
        · rw [if_pos hgt] at ht
          have hte := Option.some.inj ht
          subst hte
          exact h t0 hc
        · rw [if_neg hgt] at ht
          have hte := Option.some.inj ht
          subst hte
          exact h t0 hc
    · rw [if_neg hp] at ht; exact h t ht

theorem timerInv_tick (s : GlobalState) (now : Int) (h : TimerInv s) :
    TimerInv (tickTimer now s) := by
  intro t ht
  unfold tickTimer at ht
  by_cases hi : s.timerInterval = true
  · rw [if_pos hi] at ht
    cases hc : s.currentTimer with
    | none => simp only [hc] at ht; exact Option.noConfusion ht
    | some t0 =>
      simp only [hc] at ht
      by_cases hp : t0.isPaused = true
      · rw [if_pos hp] at ht; exact h t ht
      · rw [if_neg hp] at ht
        split at ht
        · split at ht
          · split at ht
            · have hte := Option.some.inj ht
              subst hte
              exact ⟨(clamp86400_bounds _).1, (clamp86400_bounds _).2⟩
            · have hte := Option.some.inj ht
              subst hte
              exact ⟨(clamp86400_bounds _).1, (clamp86400_bounds _).2⟩
          · have hte := Option.some.inj ht
            subst hte
            exact ⟨(clamp86400_bounds _).1, (clamp86400_bounds _).2⟩
        · have hte := Option.some.inj ht
          subst hte
          exact ⟨(clamp86400_bounds _).1, (clamp86400_bounds _).2⟩
  · rw [if_neg hi] at ht; exact h t ht

theorem timerInv_stop (s : GlobalState) (now nowEnd : Int)
    (newId deviceId : String) (saveAnyway updateChoice : Bool)
    (o : SyncOutcome) (_h : TimerInv s) :
    TimerInv (stopTimerCommand now nowEnd newId deviceId saveAnyway
      updateChoice o s) := by
  intro t ht
  unfold stopTimerCommand at ht
  cases hc : s.currentTimer with
  | none => simp only [hc] at ht; exact Option.noConfusion ht
  | some t0 =>
    simp only [hc] at ht
    split at ht
    · simp [clearTimerState] at ht
    · rw [stopKeepPath_currentTimer] at ht
      simp at ht

theorem timerInv_restore (s : GlobalState) (tc : Option Int) (now : Int)
    (h : TimerInv s) : TimerInv (restoreTimerState tc now s) := by
  intro t ht
  unfold restoreTimerState at ht
  cases hraw : s.persistedTimer with
  | none => simp only [hraw] at ht; exact h t ht
  | some raw =>
    simp only [hraw] at ht
    by_cases hv : isValidTimerState raw = true
    · rw [if_pos hv] at ht
      rw [startTimerInterval_currentTimer] at ht
      dsimp only at ht
      have hbounds := valid_elapsed_bounds raw hv
      split at ht
      · have hte := Option.some.inj ht
        subst hte
        exact hbounds
      · split at ht
        · split at ht
          · have hte := Option.some.inj ht
            subst hte
            constructor
            · refine le_min (add_nonneg hbounds.1 (Int.fdiv_nonneg ?_
                (by norm_num))) (by norm_num)
              exact le_min (le_max_left 0 _) (by norm_num)
            · exact min_le_right _ _
          · have hte := Option.some.inj ht
            subst hte
            exact hbounds
        · have hte := Option.some.inj ht
          subst hte
          exact hbounds
    · rw [if_neg hv] at ht
      dsimp only at ht
      exact h t ht

theorem timerInv_inactivity (s : GlobalState) (now : Int) (h : TimerInv s) :
    TimerInv (inactivityCheck now s) := by
  intro t ht
  unfold inactivityCheck at ht
  cases hi : s.inactivityTimer with
  | none => simp only [hi] at ht; exact h t ht
  | some timeout =>
    simp only [hi] at ht
    cases hc : s.currentTimer with
    | none => simp only [hc] at ht; exact Option.noConfusion ht
    | some t0 =>
      simp only [hc] at ht
      by_cases hp : t0.isPaused = true
      · rw [if_pos hp] at ht; exact h t ht
      · rw [if_neg hp] at ht
        split at ht
        · refine timerInv_pause _ now ?_ t ht
          intro t2 ht2
          dsimp only at ht2
          have hte := Option.some.inj ht2
          subst hte
          exact h t0 hc
        · exact h t ht

theorem timerInv_activity (s : GlobalState) (ar : Bool) (tc : Option Int)
    (now : Int) (h : TimerInv s) :
    TimerInv (updateActivity ar tc now s) := by
  intro t ht
  unfold updateActivity at ht
  dsimp only at ht
  cases hc : s.currentTimer with
  | none => simp only [hc] at ht; exact Option.noConfusion ht
  | some t0 =>
    simp only [hc] at ht
    split at ht
    · split at ht
      · have hte : some t0 = some t := ht
        have hte2 := Option.some.inj hte
        subst hte2
        exact h t0 hc
      · split at ht
        · refine timerInv_resume _ tc now ?_ t ht
          intro t2 ht2
          have hte : some ({ t0 with pausedDueToInactivity := some false })
              = some t2 := ht2
          have hte2 := Option.some.inj hte
          subst hte2
          exact h t0 hc
        · have hte : some t0 = some t := ht
          have hte2 := Option.some.inj hte
          subst hte2
          exact h t0 hc
    · have hte : some t0 = some t := ht
      have hte2 := Option.some.inj hte
      subst hte2
      exact h t0 hc

theorem step_timerInv (s : GlobalState) (op : Op) (h : TimerInv s) :
    TimerInv (step s op) := by
  cases op with
  | start itemId title p tc now => exact timerInv_start s itemId title p tc now h
  | pause now => exact timerInv_pause s now h
  | resume tc now => exact timerInv_resume s tc now h
  | tick now => exact timerInv_tick s now h
  | stop now nowEnd newId devId sv up o =>
    exact timerInv_stop s now nowEnd newId devId sv up o h
  | restore tc now => exact timerInv_restore s tc now h
  | inactivity now => exact timerInv_inactivity s now h
  | activity ar tc now => exact timerInv_activity s ar tc now h
  | armInactivity tc =>
    intro t ht
    simp only [step, startInactivityTimer_currentTimer] at ht
    exact h t ht
  | syncInvoke =>
    intro t ht
    simp only [step, syncPendingTimeEntries_currentTimer] at ht
    exact h t ht
  | syncStep o now =>
    intro t ht
    simp only [step, syncStepEntry_currentTimer] at ht
    exact h t ht

theorem reachable_timerInv {s : GlobalState} (h : Reachable s) :
    TimerInv s := by
  induction h with
  | init => exact fun t ht => Option.noConfusion ht
  | next h op ih => exact step_timerInv _ op ih

/-- C1: from any reachable state, after any of the state-machine operations
(start, pause, resume, tick, stop, restore — and every other event of the
model), a live TimerSession always has `0 ≤ elapsedSeconds ≤ 86400`. -/
theorem c1_elapsed_bounded (s : GlobalState) (op : Op) (t : TimerState)
    (hs : Reachable s)
    (ht : (step s op).currentTimer = some t) :
    0 ≤ t.elapsedSeconds ∧ t.elapsedSeconds ≤ 86400 :=
  step_timerInv s op (reachable_timerInv hs) t ht

theorem c1_elapsed_bounded_witness :
    0 ≤ demoTimer.elapsedSeconds ∧ demoTimer.elapsedSeconds ≤ 86400 :=
  c1_elapsed_bounded initState (.start 42 "Fix bug" none none 0) demoTimer
    Reachable.init (by decide)

/-! The single-flight property of the sync engine. -/

/-- The ids of all ledger entries, in order. -/
def entryIds (es : List TimeEntry) : List String := es.map (fun e => e.id)

/-- The ids of the pending (`synced = false`) ledger entries — the snapshot
a sync pass iterates. -/
def pendingIds (es : List TimeEntry) : List String :=
  (es.filter (fun e => !e.synced)).map (fun e => e.id)

/-- Resume the suspended sync loop through a sequence of iterations, each
with the outcome of its remote call and its wall-clock instant. -/
def runSyncSteps (s : GlobalState) (outs : List (SyncOutcome × Int)) :
    GlobalState :=
  outs.foldl (fun acc oi => syncStepEntry oi.1 oi.2 acc) s

/-- The ids a trace starting from `s0` has submitted or still has on its
task list. -/
def passList (s : GlobalState) : List String :=
  s.submissions ++ s.syncTask.getD []

/-- Invariant of a sync pass over the snapshot taken in `s0`: submitted ids
plus the remaining task contain no duplicates and come from the pending
snapshot of `s0`. -/
def SyncPassInv (s0 s : GlobalState) : Prop :=
  (passList s).Nodup ∧
  ∀ id ∈ passList s, id ∈ pendingIds s0.timeEntries

theorem pendingIds_nodup (es : List TimeEntry)
    (h : (entryIds es).Nodup) : (pendingIds es).Nodup := by
  unfold entryIds at h
  unfold pendingIds
  exact List.Nodup.sublist
    (List.Sublist.map (fun e => e.id) (List.filter_sublist es)) h

theorem synced_not_pending (es : List TimeEntry)
    (hnd : (entryIds es).Nodup) (e : TimeEntry) (he : e ∈ es)
    (hs : e.synced = true) : e.id ∉ pendingIds es := by
  intro hmem
  unfold pendingIds at hmem
  rw [List.mem_map] at hmem
  obtain ⟨e2, he2, hid⟩ := hmem
  rw [List.mem_filter] at he2
  have he22 : e2 = e :=
    List.inj_on_of_nodup_map hnd he2.1 he hid
  rw [he22] at he2
  rw [hs] at he2
  simp at he2

theorem syncStepEntry_inv (s0 s : GlobalState) (o : SyncOutcome) (now : Int)
    (h : SyncPassInv s0 s) : SyncPassInv s0 (syncStepEntry o now s) := by
  obtain ⟨hnd, hmem⟩ := h
  unfold passList at hnd hmem
  unfold syncStepEntry
  cases htask : s.syncTask with
  | none => exact ⟨hnd, hmem⟩
  | some l =>
    rw [htask] at hnd hmem
    cases l with
    | nil =>
      constructor
      · simpa [passList] using hnd
      · intro x hx
        refine hmem x ?_
        simpa [passList] using hx
    | cons i rest =>
      have hnd2 : (s.submissions ++ (i :: rest)).Nodup := by simpa using hnd
      have hmem2 : ∀ x ∈ s.submissions ++ (i :: rest),
          x ∈ pendingIds s0.timeEntries := by
        intro x hx
        refine hmem x ?_
        simpa using hx
      have hsubl : (s.submissions ++ rest).Sublist
          (s.submissions ++ (i :: rest)) :=
        List.Sublist.append_left (List.sublist_cons_self i rest)
          s.submissions
      have hskip : SyncPassInv s0 { s with syncTask := some rest } := by
        constructor
        · show (s.submissions ++ (some rest).getD []).Nodup
          exact List.Nodup.sublist hsubl hnd2
        · intro x hx
          have hx2 : x ∈ s.submissions ++ rest := by
            simpa [passList] using hx
          exact hmem2 x (hsubl.subset hx2)
      cases hfind : s.timeEntries.find? (fun e => e.id = i) with
      | none => simp only [hfind]; exact hskip
      | some e =>
        simp only [hfind]
        by_cases hsy : e.synced = true
        · rw [if_pos hsy]; exact hskip
        · rw [if_neg hsy]
          by_cases hapi : s.apiAvailable = true
          · constructor
            · show (((syncTimeEntryToAzure i o now s).1).submissions
                  ++ (some rest).getD []).Nodup
              rw [syncTimeEntryToAzure_submissions i o now s hapi]
              simpa [List.append_assoc] using hnd2
            · intro x hx
              have hx2 : x ∈ ((syncTimeEntryToAzure i o now s).1).submissions
                  ++ rest := by simpa [passList] using hx
              rw [syncTimeEntryToAzure_submissions i o now s hapi] at hx2
              have hre : (s.submissions ++ [i]) ++ rest
                  = s.submissions ++ (i :: rest) := by simp
              rw [hre] at hx2
              exact hmem2 x hx2
          · have hid : (syncTimeEntryToAzure i o now s).1 = s := by
              simp [syncTimeEntryToAzure, hapi]
            rw [hid]
            exact hskip

theorem runSyncSteps_inv (s0 : GlobalState)
    (outs : List (SyncOutcome × Int)) :
    ∀ s : GlobalState, SyncPassInv s0 s →
      SyncPassInv s0 (runSyncSteps s outs) := by
  induction outs with
  | nil => exact fun s h => h
  | cons oi rest ih =>
    intro s h
    exact ih _ (syncStepEntry_inv s0 s oi.1 oi.2 h)

theorem syncInvoke_establishes (s : GlobalState)
    (hnd : (entryIds s.timeEntries).Nodup)
    (hsub : s.submissions = []) (htask : s.syncTask = none) :
    SyncPassInv s (syncPendingTimeEntries s) := by
  have hplist : passList { s with syncTask := nextSyncTask s }
      = (nextSyncTask s).getD [] := by
    simp [passList, hsub]
  constructor
  · show (passList { s with syncTask := nextSyncTask s }).Nodup
    rw [hplist]
    unfold nextSyncTask
    by_cases hapi : s.apiAvailable = true
    · rw [if_pos hapi]
      simp only [htask, Option.isSome_none, Bool.false_eq_true, if_false]
      split
      · simp
      · exact pendingIds_nodup _ hnd
    · rw [if_neg hapi, htask]
      simp
  · intro x hx
    have hx2 : x ∈ (nextSyncTask s).getD [] := by
      rw [← hplist]
      simpa [passList] using hx
    unfold nextSyncTask at hx2
    by_cases hapi : s.apiAvailable = true
    · rw [if_pos hapi] at hx2
      simp only [htask, Option.isSome_none, Bool.false_eq_true,
        if_false] at hx2
      split at hx2
      · simp at hx2
      · simpa [pendingIds] using hx2
    · rw [if_neg hapi, htask] at hx2
      simp at hx2

theorem syncInvoke_busy (s : GlobalState) (h : s.syncTask.isSome = true) :
    syncPendingTimeEntries s = s := by
  unfold syncPendingTimeEntries nextSyncTask
  by_cases hapi : s.apiAvailable = true
  · rw [if_pos hapi, if_pos h]
  · rw [if_neg hapi]

/-- C4: let `s` be a quiescent state (no pass in flight, nothing submitted
yet, distinct entry ids). Invoke `syncPendingTimeEntries`, run any prefix of
the pass (`outs1`), and — while the first pass is still in flight
(`hover`) — invoke it again, then keep running (`outs2`). The overlapping
second invocation returns immediately leaving the state untouched; across
both invocations every entry is submitted to the remote at most once; and
entries that were already `synced = true` are never submitted. -/
theorem c4_sync_single_flight (s : GlobalState)
    (outs1 outs2 : List (SyncOutcome × Int))
    (hnd : (entryIds s.timeEntries).Nodup)
    (hsub : s.submissions = [])
    (htask : s.syncTask = none)
    (hover : ((runSyncSteps (syncPendingTimeEntries s) outs1).syncTask).isSome
      = true) :
    syncPendingTimeEntries (runSyncSteps (syncPendingTimeEntries s) outs1)
      = runSyncSteps (syncPendingTimeEntries s) outs1 ∧
    (∀ id, (runSyncSteps (syncPendingTimeEntries (runSyncSteps
        (syncPendingTimeEntries s) outs1)) outs2).submissions.count id
      ≤ 1) ∧
    (∀ e ∈ s.timeEntries, e.synced = true →
      e.id ∉ (runSyncSteps (syncPendingTimeEntries (runSyncSteps
        (syncPendingTimeEntries s) outs1)) outs2).submissions) := by
  have h1 : SyncPassInv s (syncPendingTimeEntries s) :=
    syncInvoke_establishes s hnd hsub htask
  have h2 : SyncPassInv s (runSyncSteps (syncPendingTimeEntries s) outs1) :=
    runSyncSteps_inv s outs1 _ h1
  have heq : syncPendingTimeEntries (runSyncSteps (syncPendingTimeEntries s)
      outs1) = runSyncSteps (syncPendingTimeEntries s) outs1 :=
    syncInvoke_busy _ hover
  have h4 : SyncPassInv s (runSyncSteps (syncPendingTimeEntries (runSyncSteps
      (syncPendingTimeEntries s) outs1)) outs2) := by
    rw [heq]
    exact runSyncSteps_inv s outs2 _ h2
  refine ⟨heq, ?_, ?_⟩
  · intro id
    have hnodup := List.Nodup.of_append_left h4.1
    exact List.nodup_iff_count_le_one.mp hnodup id
  · intro e he hsy hmem
    have hx : e.id ∈ pendingIds s.timeEntries :=
      h4.2 e.id (List.mem_append.mpr (Or.inl hmem))
    exact synced_not_pending s.timeEntries hnd e he hsy hx

/-- A pending and an already-synced ledger entry. -/
def pendingA : TimeEntry :=
  { id := "a", workItemId := 1, startTime := 0, endTime := 100000,
    duration := 100, synced := false }

def syncedB : TimeEntry :=
  { id := "b", workItemId := 2, startTime := 0, endTime := 200000,
    duration := 200, synced := true }

/-- A quiescent state holding both. -/
def twoEntryState : GlobalState :=
  { initState with timeEntries := [pendingA, syncedB] }

theorem c4_sync_single_flight_witness :
    syncPendingTimeEntries (runSyncSteps
        (syncPendingTimeEntries twoEntryState) [])
      = runSyncSteps (syncPendingTimeEntries twoEntryState) [] ∧
    (∀ id, (runSyncSteps (syncPendingTimeEntries (runSyncSteps
        (syncPendingTimeEntries twoEntryState) [])) []).submissions.count id
      ≤ 1) ∧
    (∀ e ∈ twoEntryState.timeEntries, e.synced = true →
      e.id ∉ (runSyncSteps (syncPendingTimeEntries (runSyncSteps
        (syncPendingTimeEntries twoEntryState) [])) []).submissions) :=
  c4_sync_single_flight twoEntryState [] [] (by decide) rfl rfl (by decide)

theorem c10_start_resets_pomodoro_marker_witness :
    (startTimer 42 "Fix bug" (some true) (some 300) 1000
        initState).persistedLastPomodoroNotification = 0 ∧
    ∃ t, (startTimer 42 "Fix bug" (some true) (some 300) 1000
        initState).currentTimer = some t ∧ t.pomodoroCount = some 0 :=
  c10_start_resets_pomodoro_marker 42 "Fix bug" (some true) (some 300) 1000
    initState rfl rfl

end AzdoCompanion
